import Mathlib

/-!
# Verification of the sentiment-classification notebook

A shallow embedding of `src/preprocessing/dask_ml.ipynb` (notebook cell
`90d7cddc`).  The cell is a linear script: load a CSV with dask, drop rows
with missing `review`/`sentiment`, materialize a random 20% sample, coerce
columns, split 80/20 with `train_test_split(test_size=0.2, random_state=42)`,
fit a `TfidfVectorizer(max_features=1000)` on the training texts, transform
both partitions, fit a `LogisticRegression`, predict on the test features and
print a `classification_report`.

The script itself contains no custom algorithm: every step is a direct call
into dask or scikit-learn.  Each library call is therefore embedded from its
documented semantics (noted per definition); the randomness of the unseeded
dask `sample` and of the seeded shuffle inside `train_test_split` is made
explicit, as a permutation argument for the former and a deterministic
seeded pseudo-random permutation for the latter.  Numeric feature values use
`Rat` in place of floating point; the claims settled here do not depend on
the numeric values of TF-IDF weights or of the trained coefficients.
-/

/-- A raw row of `output.csv` restricted to the two columns the script uses.
A `none` entry is a missing value (pandas `NaN`); `sentiment` is kept as the
raw cell text, since its coercion to an integer (`astype(int)`) can fail. -/
structure RawRow where
  review : Option String
  sentiment : Option String
  deriving DecidableEq, Repr

/-- A row after `df.dropna(subset=['review', 'sentiment'])`: both required
columns are present. -/
structure CleanRow where
  review : String
  sentiment : String
  deriving DecidableEq, Repr

/-- The loaded CSV: `dd.read_csv("output.csv")` restricted to what the script
touches.  The two flags record whether the file's header actually has the
`review` and `sentiment` columns; `dropna(subset=...)` raises a `KeyError`
when a named column is absent. -/
structure CsvFile where
  hasReview : Bool
  hasSentiment : Bool
  rows : List RawRow
  deriving DecidableEq, Repr

/-- `df.dropna(subset=['review', 'sentiment'])`: keep exactly the rows whose
`review` and `sentiment` cells are both present. -/
def dropna (rows : List RawRow) : List CleanRow :=
  rows.filterMap fun r =>
    match r.review, r.sentiment with
    | some v, some s => some ⟨v, s⟩
    | _, _ => none

/-- Number of rows kept by `sample(frac=0.2)`: 20% of `n`, rounded to the
nearest integer (the underlying pandas `sample` takes `round(frac * n)`
rows). -/
def sampleSize (n : Nat) : Nat :=
  (2 * n + 5) / 10

/-- `df.sample(frac=0.2).compute()`.  The call is unseeded, so the random
draw is an explicit parameter: `perm` is the random order in which row
indices are drawn, and the sample keeps the first `sampleSize n` drawn rows.
Out-of-range draws select nothing. -/
def dfSample (perm : List Nat) (rows : List CleanRow) : List CleanRow :=
  (perm.take (sampleSize rows.length)).filterMap fun i => rows[i]?

/-- A decimal digit of an integer cell. -/
def digit? (c : Char) : Option Nat :=
  if 48 ≤ c.toNat ∧ c.toNat ≤ 57 then some (c.toNat - 48) else none

/-- Parse a run of decimal digits, most significant first. -/
def parseNatAux : List Char → Nat → Option Nat
  | [], acc => some acc
  | c :: cs, acc =>
    match digit? c with
    | some d => parseNatAux cs (10 * acc + d)
    | none => none

/-- Parse an optionally negated decimal integer from a cell's characters;
anything else is not integer-coercible. -/
def parseIntCells : List Char → Option Int
  | [] => none
  | '-' :: cs =>
    match cs with
    | [] => none
    | _ => (parseNatAux cs 0).map fun n => -(n : Int)
  | cs => (parseNatAux cs 0).map fun n => (n : Int)

/-- `int(cell)`: the integer a sentiment cell coerces to, when it does. -/
def parseInt? (s : String) : Option Int :=
  parseIntCells s.toList

/-- `X_raw = df_sample['review'].astype(str)` together with
`y = df_sample['sentiment'].astype(int)`.  `astype(str)` on a text column is
the identity; `astype(int)` parses the cell and raises a `ValueError` on a
non-integer cell, so the step as a whole is fallible: it returns the text
column and the integer label column, or `none` if any sentiment cell fails
to parse. -/
def coerceRow (r : CleanRow) : Option (String × Int) :=
  (parseInt? r.sentiment).map fun v => (r.review, v)

/-- The whole coercion step over the sampled rows: see `coerceRow`. -/
def coerceColumns (rows : List CleanRow) : Option (List String × List Int) :=
  (rows.mapM coerceRow).map fun ps => (ps.map Prod.fst, ps.map Prod.snd)

/-- A step of the linear congruential generator standing in for numpy's
`RandomState` stream. -/
def lcgStep (s : Nat) : Nat :=
  (1103515245 * s + 12345) % 2147483648

/-- The pseudo-random key the shuffle assigns to index `i` under `seed`. -/
def shuffleKey (seed i : Nat) : Nat :=
  lcgStep (lcgStep seed + i)

/-- The random permutation of `0, ..., n-1` drawn by
`train_test_split(..., random_state=seed)`: the seeded PRNG assigns each
index a key and the shuffle orders indices by key.  Any deterministic
seed-driven permutation embeds sklearn's shuffle faithfully for the claims
below, which depend only on it being a permutation determined by the seed. -/
def shuffleIndices (seed n : Nat) : List Nat :=
  (List.range n).insertionSort fun i j => shuffleKey seed i ≤ shuffleKey seed j

/-- The result of `train_test_split(X_raw, y, test_size=0.2, random_state=42)`:
`(X_train_raw, X_test_raw, y_train, y_test)`. -/
structure SplitResult where
  XTrainRaw : List String
  XTestRaw : List String
  yTrain : List Int
  yTest : List Int
  deriving DecidableEq, Repr

/-- Number of rows `train_test_split` puts in the test partition for
`test_size=0.2`: `ceil(0.2 * n)` (sklearn `_validate_shuffle_split`). -/
def testPartSize (n : Nat) : Nat :=
  (n + 4) / 5

/-- `train_test_split(X, y, test_size=0.2, random_state=seed)`: draw the
seeded random permutation of the row indices, let the first `ceil(0.2 * n)`
permuted indices form the test partition and the rest the train partition,
and index both `X` and `y` by the same index lists.  Out-of-range indices
(which a permutation of `range n` never produces) select nothing. -/
def trainTestSplit (seed : Nat) (X : List String) (y : List Int) : SplitResult :=
  let n := X.length
  let perm := shuffleIndices seed n
  let testIdx := perm.take (testPartSize n)
  let trainIdx := perm.drop (testPartSize n)
  { XTrainRaw := trainIdx.filterMap fun i => X[i]?
    XTestRaw := testIdx.filterMap fun i => X[i]?
    yTrain := trainIdx.filterMap fun i => y[i]?
    yTest := testIdx.filterMap fun i => y[i]? }

/-- Tokenization used by the vectorizer, embedded as whitespace splitting;
the claims below do not depend on the token pattern. -/
def tokenize (s : String) : List String :=
  (s.splitOn " ").filter fun t => t ≠ ""

/-- Number of documents of `docs` containing token `t` (document frequency),
the statistic behind the vectorizer's idf weights. -/
def docFreq (docs : List String) (t : String) : Nat :=
  (docs.filter fun d => t ∈ tokenize d).length

/-- The fitted state of `TfidfVectorizer(max_features=1000)`: the learned
vocabulary (an ordered list of feature tokens) and the per-token idf
statistic, both produced by `fit`. -/
structure TfidfModel where
  vocab : List String
  idf : String → Rat

/-- The vocabulary `TfidfVectorizer(max_features=maxFeatures)` learns: the
distinct corpus tokens ranked by decreasing total frequency across the
corpus, truncated to the top `maxFeatures`. -/
def buildVocab (maxFeatures : Nat) (docs : List String) : List String :=
  let toks := (docs.map tokenize).flatten
  ((toks.dedup).insertionSort fun a b => toks.count b ≤ toks.count a).take maxFeatures

/-- The idf weight of token `t`, embedded over `Rat`: the smoothed ratio
`(1 + #docs) / (1 + df(t))` whose logarithm sklearn takes.  The claims below
never inspect the numeric value, only the shape of the vectors, so the
transcendental `log` is left out of the rational surrogate. -/
def idfWeight (docs : List String) (t : String) : Rat :=
  (1 + docs.length : Rat) / (1 + docFreq docs t)

/-- `TfidfVectorizer(max_features=1000).fit(docs)` (with the cap as a
parameter): learn the capped frequency-ranked vocabulary and the idf
statistics of the corpus. -/
def tfidfFit (maxFeatures : Nat) (docs : List String) : TfidfModel :=
  { vocab := buildVocab maxFeatures docs
    idf := idfWeight docs }

/-- `vectorizer.transform` on one document: one numeric entry per vocabulary
token, the term frequency weighted by the fitted idf.  The vector length is
the fitted vocabulary size, whatever the document contains. -/
def tfidfTransformOne (m : TfidfModel) (doc : String) : List Rat :=
  m.vocab.map fun t => ((tokenize doc).count t : Rat) * m.idf t

/-- `vectorizer.transform(docs)`: row-wise transform, returning the feature
matrix together with the vectorizer state it leaves behind, which is the
state it was given — `transform` only reads the fitted state. -/
def tfidfTransform (m : TfidfModel) (docs : List String) :
    List (List Rat) × TfidfModel :=
  (docs.map (tfidfTransformOne m), m)

/-- `vectorizer.fit_transform(docs)`: fit on `docs`, then transform `docs`
with the freshly fitted state, returning the matrix and the fitted state. -/
def tfidfFitTransform (maxFeatures : Nat) (docs : List String) :
    List (List Rat) × TfidfModel :=
  let m := tfidfFit maxFeatures docs
  ((tfidfTransform m docs).1, m)

/-- The fitted state of `LogisticRegression()`: `classes_`, the sorted
distinct labels seen in `y_train`, and the learned per-class scoring
function (the linear decision function the optimizer produces from the
coefficients).  The scoring function is carried abstractly — the claims
below hold for every scoring the optimizer could learn — while `classes_`
is computed exactly as sklearn does, as `numpy.unique(y_train)`. -/
structure LRModel where
  classes : List Int
  score : List Rat → Int → Rat

/-- `numpy.unique`: the distinct values in ascending order. -/
def npUnique (y : List Int) : List Int :=
  (y.dedup).insertionSort fun a b => a ≤ b

/-- `LogisticRegression().fit(X_train, y_train)`: record the classes present
in `y_train` and the scoring function produced by the optimizer for this
training data (`opt` stands for the optimizer's outcome). -/
def lrFit (opt : List (List Rat) → List Int → List Rat → Int → Rat)
    (XTrain : List (List Rat)) (yTrain : List Int) : LRModel :=
  { classes := npUnique yTrain
    score := opt XTrain yTrain }

/-- The first maximizer of `f` over a list of candidate classes (ties go to
the earlier class, as `numpy.argmax` takes the first maximum). -/
def pickMax (f : Int → Rat) : List Int → Int
  | [] => 0
  | [c] => c
  | c :: c₂ :: rest =>
    let b := pickMax f (c₂ :: rest)
    if f b > f c then b else c

/-- `model.predict` on one feature vector: the class of `classes_` whose
decision score is maximal. -/
def lrPredictOne (m : LRModel) (x : List Rat) : Int :=
  pickMax (m.score x) m.classes

/-- `model.predict(X_test)`: row-wise prediction. -/
def lrPredict (m : LRModel) (X : List (List Rat)) : List Int :=
  X.map (lrPredictOne m)

/-- One printed row of `classification_report`: a class label with its
precision, recall, f1-score and support. -/
structure ReportRow where
  label : Int
  precisionScore : Rat
  recallScore : Rat
  f1 : Rat
  support : Nat
  deriving DecidableEq, Repr

/-- The classes `classification_report` reports on when `labels` is left to
its default: the sorted distinct labels occurring in `y_true` or `y_pred`. -/
def reportLabels (yTrue yPred : List Int) : List Int :=
  npUnique (yTrue ++ yPred)

/-- The per-class rows of `classification_report(y_test, y_pred)`: for each
reported class, precision over the predictions, recall over the truth, their
harmonic mean, and the support (the number of true instances of the class).
A zero denominator yields 0, as sklearn's zero-division default does. -/
def classificationReport (yTrue yPred : List Int) : List ReportRow :=
  (reportLabels yTrue yPred).map fun c =>
    let tp := ((yTrue.zip yPred).filter fun p => p.1 = c ∧ p.2 = c).length
    let predP := yPred.count c
    let actP := yTrue.count c
    let p : Rat := if predP = 0 then 0 else (tp : Rat) / predP
    let r : Rat := if actP = 0 then 0 else (tp : Rat) / actP
    let f : Rat := if p + r = 0 then 0 else 2 * p * r / (p + r)
    { label := c, precisionScore := p, recallScore := r, f1 := f, support := actP }

/-- The errors a run of the cell can stop with: the file is missing
(`read_csv`), a required column is absent (`dropna(subset=...)` raises
`KeyError`), or a sentiment cell is not integer-coercible (`astype(int)`
raises `ValueError`). -/
inductive PipeError where
  | fileMissing
  | missingColumn
  | badLabel
  deriving DecidableEq, Repr

/-- The tail of the cell after the split inputs exist: split, vectorize on
the training texts, transform both partitions, fit, predict, report. -/
def modelAndReport (opt : List (List Rat) → List Int → List Rat → Int → Rat)
    (X : List String) (y : List Int) : List ReportRow :=
  let s := trainTestSplit 42 X y
  let fitted := tfidfFitTransform 1000 s.XTrainRaw
  let XTrain := fitted.1
  let XTest := (tfidfTransform fitted.2 s.XTestRaw).1
  let model := lrFit opt XTrain s.yTrain
  let yPred := lrPredict model XTest
  classificationReport s.yTest yPred

/-- The run of the whole cell.  `file` is the state of `output.csv` (`none`
when absent), `samplePerm` the random draw of the unseeded `sample`, `opt`
the optimizer's outcome.  Alongside the result — the printed report, or the
error the run stops with — the list of steps that executed is returned, in
order; a failing step is last, and the steps after it never run.  There is
no validation and no handler: each failure is the raw library error,
propagated. -/
def runCell (opt : List (List Rat) → List Int → List Rat → Int → Rat)
    (file : Option CsvFile) (samplePerm : List Nat) :
    Except PipeError (List ReportRow) × List String :=
  match file with
  | none => (.error .fileMissing, ["read_csv"])
  | some f =>
    if f.hasReview ∧ f.hasSentiment then
      let sampled := dfSample samplePerm (dropna f.rows)
      match coerceColumns sampled with
      | none => (.error .badLabel, ["read_csv", "dropna", "sample", "astype"])
      | some (X, y) =>
        (.ok (modelAndReport opt X y),
         ["read_csv", "dropna", "sample", "astype", "train_test_split",
          "tfidf", "fit", "predict", "report"])
    else
      (.error .missingColumn, ["read_csv", "dropna"])

/-! ## Helper lemmas -/

/-- A row surviving `dropna` is a row of the input with both cells present. -/
theorem mem_dropna {r : CleanRow} {rows : List RawRow} (h : r ∈ dropna rows) :
    (⟨some r.review, some r.sentiment⟩ : RawRow) ∈ rows := by
  obtain ⟨a, ha, hfa⟩ := List.mem_filterMap.mp h
  match a with
  | ⟨some v, some s⟩ =>
    simp only [Option.some.injEq] at hfa
    cases hfa
    exact ha
  | ⟨none, _⟩ => simp at hfa
  | ⟨some _, none⟩ => simp at hfa

/-- The seeded shuffle is a permutation of the index range. -/
theorem shuffleIndices_perm (seed n : Nat) :
    (shuffleIndices seed n).Perm (List.range n) :=
  List.perm_insertionSort _ _

theorem length_shuffleIndices (seed n : Nat) :
    (shuffleIndices seed n).length = n := by
  simpa using (shuffleIndices_perm seed n).length_eq

theorem mem_shuffleIndices_lt {seed n i : Nat} (h : i ∈ shuffleIndices seed n) :
    i < n := by
  have := (shuffleIndices_perm seed n).mem_iff.mp h
  simpa using this

/-- Indexing a list by a list of in-range indices keeps every index. -/
theorem filterMap_getElem?_eq_map {α : Type} (X : List α) (d : α) :
    ∀ l : List Nat, (∀ j ∈ l, j < X.length) →
      (l.filterMap fun i => X[i]?) = l.map fun i => X.getD i d
  | [], _ => rfl
  | j :: t, h => by
    have hj : j < X.length := h j (List.mem_cons_self j t)
    have ht : ∀ i ∈ t, i < X.length := fun i hi => h i (List.mem_cons_of_mem _ hi)
    simp only [List.filterMap_cons, List.map_cons,
      List.getElem?_eq_getElem hj, List.getD_eq_getElem X d hj,
      filterMap_getElem?_eq_map X d t ht]

theorem length_filterMap_getElem? {α : Type} (X : List α) (d : α)
    (l : List Nat) (h : ∀ j ∈ l, j < X.length) :
    (l.filterMap fun i => X[i]?).length = l.length := by
  rw [filterMap_getElem?_eq_map X d l h, List.length_map]

theorem testPartSize_le (n : Nat) : testPartSize n ≤ n := by
  unfold testPartSize; omega

/-- The four partition sizes produced by the split, for equally long inputs. -/
theorem trainTestSplit_lengths (seed : Nat) (X : List String) (y : List Int)
    (h : y.length = X.length) :
    (trainTestSplit seed X y).XTestRaw.length = testPartSize X.length ∧
    (trainTestSplit seed X y).XTrainRaw.length = X.length - testPartSize X.length ∧
    (trainTestSplit seed X y).yTest.length = testPartSize X.length ∧
    (trainTestSplit seed X y).yTrain.length = X.length - testPartSize X.length := by
  have htake : ∀ j ∈ (shuffleIndices seed X.length).take (testPartSize X.length),
      j < X.length := fun j hj => mem_shuffleIndices_lt (List.mem_of_mem_take hj)
  have hdrop : ∀ j ∈ (shuffleIndices seed X.length).drop (testPartSize X.length),
      j < X.length := fun j hj => mem_shuffleIndices_lt (List.mem_of_mem_drop hj)
  have hty : ∀ j ∈ (shuffleIndices seed X.length).take (testPartSize X.length),
      j < y.length := fun j hj => h ▸ htake j hj
  have hdy : ∀ j ∈ (shuffleIndices seed X.length).drop (testPartSize X.length),
      j < y.length := fun j hj => h ▸ hdrop j hj
  have hlt : (((shuffleIndices seed X.length).take (testPartSize X.length)).length)
      = testPartSize X.length := by
    rw [List.length_take, length_shuffleIndices]
    exact min_eq_left (testPartSize_le X.length)
  have hld : (((shuffleIndices seed X.length).drop (testPartSize X.length)).length)
      = X.length - testPartSize X.length := by
    rw [List.length_drop, length_shuffleIndices]
  refine ⟨?_, ?_, ?_, ?_⟩ <;>
    simp only [trainTestSplit, length_filterMap_getElem? X "" _ htake,
      length_filterMap_getElem? X "" _ hdrop, length_filterMap_getElem? y 0 _ hty,
      length_filterMap_getElem? y 0 _ hdy, hlt, hld]

/-- Sum of an indicator over a list avoiding the marked value. -/
theorem sum_map_indicator_zero (x : Int) :
    ∀ cs : List Int, x ∉ cs →
      (cs.map fun c => if x = c then 1 else 0).sum = 0
  | [], _ => rfl
  | c :: t, hx => by
    have hcx : x ≠ c := fun hEq => hx (hEq ▸ List.mem_cons_self c t)
    have ht := sum_map_indicator_zero x t fun hmem => hx (List.mem_cons_of_mem _ hmem)
    simp [hcx, ht]

/-- Sum of an indicator over a duplicate-free list containing the marked
value. -/
theorem sum_map_indicator_one (x : Int) :
    ∀ cs : List Int, cs.Nodup → x ∈ cs →
      (cs.map fun c => if x = c then 1 else 0).sum = 1
  | c :: t, hnd, hx => by
    obtain ⟨hct, hndt⟩ := List.nodup_cons.mp hnd
    by_cases hcx : x = c
    · subst hcx
      simp [sum_map_indicator_zero x t hct]
    · have hxt : x ∈ t := by
        rcases List.mem_cons.mp hx with hEq | hmem
        · exact absurd hEq hcx
        · exact hmem
      simp [hcx, sum_map_indicator_one x t hndt hxt]

/-- Counting each class of a duplicate-free class list covering `a` tallies
every element of `a` exactly once. -/
theorem sum_map_count_eq (cs : List Int) (hnd : cs.Nodup) :
    ∀ a : List Int, (∀ x ∈ a, x ∈ cs) →
      (cs.map fun c => a.count c).sum = a.length
  | [], _ => by simp
  | x :: t, hsub => by
    have hxcs : x ∈ cs := hsub x (List.mem_cons_self x t)
    have hts : ∀ z ∈ t, z ∈ cs := fun z hz => hsub z (List.mem_cons_of_mem _ hz)
    have ht := sum_map_count_eq cs hnd t hts
    have hsplit : (cs.map fun c => (x :: t).count c)
        = cs.map fun c => t.count c + if x = c then 1 else 0 := by
      refine List.map_congr_left fun c _ => ?_
      simp [List.count_cons]
    rw [hsplit, List.sum_map_add, ht, sum_map_indicator_one x cs hnd hxcs,
      List.length_cons]

/-- `mapM` over the per-row coercion succeeds on all-coercible rows and
returns the parsed pairs in order. -/
theorem mapM_coerceRow :
    ∀ rows : List CleanRow, (∀ r ∈ rows, (parseInt? r.sentiment).isSome) →
      rows.mapM coerceRow
        = some (rows.map fun r => (r.review, (parseInt? r.sentiment).getD 0))
  | [], _ => rfl
  | r :: t, h => by
    obtain ⟨v, hv⟩ := Option.isSome_iff_exists.mp (h r (List.mem_cons_self r t))
    have ht := mapM_coerceRow t fun r' hr' => h r' (List.mem_cons_of_mem _ hr')
    rw [List.mapM_cons, ht]
    simp [coerceRow, hv]

/-- The coercion step on all-coercible rows: the texts are the `review`
cells and the labels the parsed `sentiment` cells, in row order. -/
theorem coerceColumns_eq_some (rows : List CleanRow)
    (h : ∀ r ∈ rows, (parseInt? r.sentiment).isSome) :
    coerceColumns rows
      = some (rows.map fun r => r.review,
              rows.map fun r => (parseInt? r.sentiment).getD 0) := by
  unfold coerceColumns
  rw [mapM_coerceRow rows h]
  simp [List.map_map, Function.comp_def]

/-- The first maximizer over a nonempty candidate list is a candidate. -/
theorem pickMax_mem (f : Int → Rat) :
    ∀ l : List Int, l ≠ [] → pickMax f l ∈ l
  | [c], _ => by simp [pickMax]
  | c :: c₂ :: rest, _ => by
    have ih := pickMax_mem f (c₂ :: rest) (by simp)
    by_cases hc : f (pickMax f (c₂ :: rest)) > f c
    · simpa [pickMax, hc] using Or.inr ih
    · simp [pickMax, hc]

theorem mem_npUnique {a : Int} {y : List Int} : a ∈ npUnique y ↔ a ∈ y := by
  unfold npUnique
  rw [(List.perm_insertionSort _ _).mem_iff, List.mem_dedup]

theorem npUnique_ne_nil {y : List Int} (h : y ≠ []) : npUnique y ≠ [] := by
  intro hnil
  obtain ⟨a, ha⟩ := List.exists_mem_of_ne_nil y h
  exact List.not_mem_nil a (hnil ▸ mem_npUnique.mpr ha)

theorem npUnique_nodup (y : List Int) : (npUnique y).Nodup :=
  (List.perm_insertionSort _ _).nodup_iff.mpr (List.nodup_dedup y)

theorem sampleSize_le (n : Nat) : sampleSize n ≤ n := by
  unfold sampleSize; omega

/-- Entries at a common in-range position of two lists pair up in their zip. -/
theorem getD_pair_mem_zip {α β : Type} (X : List α) (Y : List β) (k : Nat)
    (hx : k < X.length) (hy : k < Y.length) (dx : α) (dy : β) :
    (X.getD k dx, Y.getD k dy) ∈ X.zip Y := by
  rw [List.getD_eq_getElem X dx hx, List.getD_eq_getElem Y dy hy]
  have hk : k < (X.zip Y).length := by
    rw [List.length_zip]; exact lt_min hx hy
  have := List.getElem_zip (i := k) (h := hk)
  rw [← this]
  exact List.getElem_mem hk

/-- Indexing two equally long columns by the same in-range index list keeps
rows paired: a common position of the two indexed columns holds a pair of
the original zipped table. -/
theorem indexed_pair_mem_zip (X : List String) (y : List Int)
    (h : y.length = X.length) (idx : List Nat)
    (hvalid : ∀ j ∈ idx, j < X.length) (i : Nat) (hi : i < idx.length) :
    ((idx.filterMap fun k => X[k]?).getD i "",
     (idx.filterMap fun k => y[k]?).getD i 0) ∈ X.zip y := by
  have hvy : ∀ j ∈ idx, j < y.length := fun j hj => h ▸ hvalid j hj
  have hk : idx.getD i 0 ∈ idx := by
    rw [List.getD_eq_getElem idx 0 hi]; exact List.getElem_mem hi
  have hkX : idx.getD i 0 < X.length := hvalid _ hk
  have hkY : idx.getD i 0 < y.length := hvy _ hk
  have e1 : (idx.filterMap fun k => X[k]?).getD i "" = X.getD (idx.getD i 0) "" := by
    rw [filterMap_getElem?_eq_map X "" idx hvalid,
      List.getD_eq_getElem _ "" (by rw [List.length_map]; exact hi),
      List.getElem_map, List.getD_eq_getElem idx 0 hi]
  have e2 : (idx.filterMap fun k => y[k]?).getD i 0 = y.getD (idx.getD i 0) 0 := by
    rw [filterMap_getElem?_eq_map y 0 idx hvy,
      List.getD_eq_getElem _ 0 (by rw [List.length_map]; exact hi),
      List.getElem_map, List.getD_eq_getElem idx 0 hi]
  rw [e1, e2]
  exact getD_pair_mem_zip X y _ hkX hkY "" 0

/-! ## Claims -/

/-- C1, as stated, is false: `train_test_split(test_size=0.2)` gives the
test partition `ceil(0.2 * n)` rows, so on a 6-row sample the test partition
has 2 rows, which is not 20% of 6.  (The two partition sizes do sum to 6.) -/
theorem split_exact_fifth_counterexample :
    ¬ (5 * (trainTestSplit 42 ["a", "b", "c", "d", "e", "f"]
          [0, 1, 2, 3, 4, 5]).XTestRaw.length
        = (["a", "b", "c", "d", "e", "f"] : List String).length) := by
  decide

/-- C1 (amended): for equally long text and label columns, the train and
test partition sizes sum to the input size; the test partition holds
`ceil(0.2 * n)` rows — exactly 20% whenever the input size is divisible
by 5 — and the label partitions match the text partitions in size. -/
theorem trainTestSplit_sizes (X : List String) (y : List Int)
    (h : y.length = X.length) :
    (trainTestSplit 42 X y).XTrainRaw.length
        + (trainTestSplit 42 X y).XTestRaw.length = X.length ∧
    (trainTestSplit 42 X y).XTestRaw.length = (X.length + 4) / 5 ∧
    (trainTestSplit 42 X y).yTrain.length = (trainTestSplit 42 X y).XTrainRaw.length ∧
    (trainTestSplit 42 X y).yTest.length = (trainTestSplit 42 X y).XTestRaw.length ∧
    (5 ∣ X.length → 5 * (trainTestSplit 42 X y).XTestRaw.length = X.length) := by
  obtain ⟨h1, h2, h3, h4⟩ := trainTestSplit_lengths 42 X y h
  have hle := testPartSize_le X.length
  refine ⟨?_, ?_, ?_, ?_, ?_⟩
  · rw [h1, h2]; omega
  · rw [h1]; rfl
  · rw [h4, h2]
  · rw [h3, h1]
  · intro hdvd
    rw [h1]
    unfold testPartSize
    omega

/-- C1 witness: on a 5-row sample the amended size facts hold concretely. -/
theorem trainTestSplit_sizes_witness :
    (trainTestSplit 42 ["a", "b", "c", "d", "e"] [0, 1, 2, 3, 4]).XTrainRaw.length
        + (trainTestSplit 42 ["a", "b", "c", "d", "e"] [0, 1, 2, 3, 4]).XTestRaw.length
        = (["a", "b", "c", "d", "e"] : List String).length ∧
    (trainTestSplit 42 ["a", "b", "c", "d", "e"] [0, 1, 2, 3, 4]).XTestRaw.length
        = ((["a", "b", "c", "d", "e"] : List String).length + 4) / 5 ∧
    (trainTestSplit 42 ["a", "b", "c", "d", "e"] [0, 1, 2, 3, 4]).yTrain.length
        = (trainTestSplit 42 ["a", "b", "c", "d", "e"] [0, 1, 2, 3, 4]).XTrainRaw.length ∧
    (trainTestSplit 42 ["a", "b", "c", "d", "e"] [0, 1, 2, 3, 4]).yTest.length
        = (trainTestSplit 42 ["a", "b", "c", "d", "e"] [0, 1, 2, 3, 4]).XTestRaw.length ∧
    (5 ∣ (["a", "b", "c", "d", "e"] : List String).length →
      5 * (trainTestSplit 42 ["a", "b", "c", "d", "e"] [0, 1, 2, 3, 4]).XTestRaw.length
        = (["a", "b", "c", "d", "e"] : List String).length) :=
  trainTestSplit_sizes ["a", "b", "c", "d", "e"] [0, 1, 2, 3, 4] rfl

/-- C2: every feature vector the fitted vectorizer produces — on the
training corpus via `fit_transform` or on any other document via
`transform` — has the fitted vocabulary's length, a single common length,
and that length is at most the configured `max_features = 1000`; the
vocabulary is the frequency-ranked one `buildVocab` learns. -/
theorem tfidf_dims (train : List String) :
    (tfidfFit 1000 train).vocab.length ≤ 1000 ∧
    (tfidfFit 1000 train).vocab = buildVocab 1000 train ∧
    (∀ v ∈ (tfidfFitTransform 1000 train).1,
        v.length = (tfidfFit 1000 train).vocab.length) ∧
    (∀ test : List String, ∀ v ∈ (tfidfTransform (tfidfFit 1000 train) test).1,
        v.length = (tfidfFit 1000 train).vocab.length) := by
  refine ⟨?_, rfl, ?_, ?_⟩
  · show (buildVocab 1000 train).length ≤ 1000
    unfold buildVocab
    exact List.length_take_le _ _
  · intro v hv
    obtain ⟨d, _, hd⟩ := List.mem_map.mp hv
    rw [← hd]
    exact List.length_map _ _
  · intro test v hv
    obtain ⟨d, _, hd⟩ := List.mem_map.mp hv
    rw [← hd]
    exact List.length_map _ _

/-- C2 witness: on a concrete corpus the cap and the common vector length
hold, also for a document never seen at fit time. -/
theorem tfidf_dims_witness :
    (tfidfFit 1000 ["good movie", "bad movie"]).vocab.length ≤ 1000 ∧
    (tfidfTransformOne (tfidfFit 1000 ["good movie", "bad movie"]) "unseen words").length
      = (tfidfFit 1000 ["good movie", "bad movie"]).vocab.length :=
  ⟨(tfidf_dims ["good movie", "bad movie"]).1,
   (tfidf_dims ["good movie", "bad movie"]).2.2.2 ["unseen words"]
     (tfidfTransformOne (tfidfFit 1000 ["good movie", "bad movie"]) "unseen words")
     (by simp [tfidfTransform])⟩

/-- C3: whatever random draw the unseeded `sample` makes, every sampled row
is a cleaned row, i.e. a row of the loaded dataset whose `review` and
`sentiment` cells are both present, and the sample holds 20% (rounded) of
the cleaned rows. -/
theorem dfSample_spec (raw : List RawRow) (perm : List Nat)
    (hperm : perm.Perm (List.range (dropna raw).length)) :
    (∀ r ∈ dfSample perm (dropna raw),
        r ∈ dropna raw ∧ (⟨some r.review, some r.sentiment⟩ : RawRow) ∈ raw) ∧
    (dfSample perm (dropna raw)).length = sampleSize (dropna raw).length := by
  have hvalid : ∀ j ∈ perm.take (sampleSize (dropna raw).length),
      j < (dropna raw).length := by
    intro j hj
    have := hperm.mem_iff.mp (List.mem_of_mem_take hj)
    simpa using this
  constructor
  · intro r hr
    obtain ⟨i, _, hir⟩ := List.mem_filterMap.mp hr
    have hmem : r ∈ dropna raw := by
      rcases List.getElem?_eq_some_iff.mp hir with ⟨hlt, hEq⟩
      exact hEq ▸ List.getElem_mem hlt
    exact ⟨hmem, mem_dropna hmem⟩
  · show ((perm.take (sampleSize (dropna raw).length)).filterMap
        fun i => (dropna raw)[i]?).length = _
    rw [length_filterMap_getElem? (dropna raw) ⟨"", ""⟩ _ hvalid,
      List.length_take, hperm.length_eq, List.length_range]
    exact min_eq_left (sampleSize_le _)

/-- C3 witness: a concrete 5-row file with one incomplete row; the cleaned
table has 4 rows and the sample, under a concrete draw, 1 row, and that row
is a complete row of the file. -/
theorem dfSample_spec_witness :
    (∀ r ∈ dfSample [2, 0, 1]
        (dropna [⟨some "fine", some "1"⟩, ⟨none, some "0"⟩,
                 ⟨some "dull", some "0"⟩, ⟨some "nice", some "1"⟩,
                 ⟨some "flat", none⟩]),
        r ∈ dropna [⟨some "fine", some "1"⟩, ⟨none, some "0"⟩,
                 ⟨some "dull", some "0"⟩, ⟨some "nice", some "1"⟩,
                 ⟨some "flat", none⟩] ∧
          (⟨some r.review, some r.sentiment⟩ : RawRow)
            ∈ [⟨some "fine", some "1"⟩, ⟨none, some "0"⟩,
                 ⟨some "dull", some "0"⟩, ⟨some "nice", some "1"⟩,
                 ⟨some "flat", none⟩]) ∧
    (dfSample [2, 0, 1]
        (dropna [⟨some "fine", some "1"⟩, ⟨none, some "0"⟩,
                 ⟨some "dull", some "0"⟩, ⟨some "nice", some "1"⟩,
                 ⟨some "flat", none⟩])).length
      = sampleSize (dropna [⟨some "fine", some "1"⟩, ⟨none, some "0"⟩,
                 ⟨some "dull", some "0"⟩, ⟨some "nice", some "1"⟩,
                 ⟨some "flat", none⟩]).length :=
  dfSample_spec
    [⟨some "fine", some "1"⟩, ⟨none, some "0"⟩, ⟨some "dull", some "0"⟩,
     ⟨some "nice", some "1"⟩, ⟨some "flat", none⟩]
    [2, 0, 1] (by decide)

/-- C4: in the classification report, the per-class supports — the counts
of true instances of each reported class — sum to the size of the
evaluation label list passed in. -/
theorem classificationReport_support_sum (yTrue yPred : List Int) :
    ((classificationReport yTrue yPred).map fun row => row.support).sum
      = yTrue.length := by
  have hcomp : ((classificationReport yTrue yPred).map fun row => row.support)
      = (reportLabels yTrue yPred).map fun c => yTrue.count c := by
    unfold classificationReport
    rw [List.map_map]
    rfl
  rw [hcomp]
  exact sum_map_count_eq (reportLabels yTrue yPred) (npUnique_nodup _) yTrue
    fun x hx => mem_npUnique.mpr (List.mem_append_left _ hx)

/-- C5: the fitted vectorizer state is a function of the training texts
alone — transforming a test corpus returns the state it was given, equal to
the state `fit` produced from the training corpus and independent of which
test corpus is transformed — and the test vectors are computed with the
vocabulary fitted on the training corpus. -/
theorem tfidf_state_frame (train test test' : List String) :
    (tfidfTransform (tfidfFit 1000 train) test).2 = tfidfFit 1000 train ∧
    (tfidfFitTransform 1000 train).2 = tfidfFit 1000 train ∧
    (tfidfTransform (tfidfFit 1000 train) test).2
      = (tfidfTransform (tfidfFit 1000 train) test').2 ∧
    (tfidfTransform (tfidfFit 1000 train) test).1
      = test.map (tfidfTransformOne (tfidfFit 1000 train)) :=
  ⟨rfl, rfl, rfl, rfl⟩

/-- C6: when every sampled sentiment cell is integer-coercible, the coercion
step succeeds and yields exactly the review texts (all strings) and the
parsed integer labels, in row order; the run then feeds precisely these two
columns to `modelAndReport`, which by definition passes them to the split
and the split's partitions on to the trainer and the evaluation. -/
theorem coerce_and_wiring (opt : List (List Rat) → List Int → List Rat → Int → Rat)
    (f : CsvFile) (samplePerm : List Nat)
    (hcols : f.hasReview ∧ f.hasSentiment)
    (hcoerce : ∀ r ∈ dfSample samplePerm (dropna f.rows),
        (parseInt? r.sentiment).isSome) :
    coerceColumns (dfSample samplePerm (dropna f.rows))
      = some ((dfSample samplePerm (dropna f.rows)).map fun r => r.review,
              (dfSample samplePerm (dropna f.rows)).map
                fun r => (parseInt? r.sentiment).getD 0) ∧
    runCell opt (some f) samplePerm
      = (.ok (modelAndReport opt
            ((dfSample samplePerm (dropna f.rows)).map fun r => r.review)
            ((dfSample samplePerm (dropna f.rows)).map
              fun r => (parseInt? r.sentiment).getD 0)),
         ["read_csv", "dropna", "sample", "astype", "train_test_split",
          "tfidf", "fit", "predict", "report"]) ∧
    (∀ X y, modelAndReport opt X y
        = classificationReport (trainTestSplit 42 X y).yTest
            (lrPredict
              (lrFit opt (tfidfFitTransform 1000 (trainTestSplit 42 X y).XTrainRaw).1
                (trainTestSplit 42 X y).yTrain)
              (tfidfTransform (tfidfFitTransform 1000 (trainTestSplit 42 X y).XTrainRaw).2
                (trainTestSplit 42 X y).XTestRaw).1)) := by
  have hc := coerceColumns_eq_some _ hcoerce
  refine ⟨hc, ?_, fun X y => rfl⟩
  simp [runCell, hcols.1, hcols.2, hc]

/-- C6 witness: a concrete file whose sampled row is coercible; the
coercion equation and the run equation hold there. -/
theorem coerce_and_wiring_witness :
    coerceColumns (dfSample [1, 0, 2]
        (dropna [⟨some "ok", some "1"⟩, ⟨some "bad", some "0"⟩,
                 ⟨some "meh", some "1"⟩]))
      = some ((dfSample [1, 0, 2]
            (dropna [⟨some "ok", some "1"⟩, ⟨some "bad", some "0"⟩,
                 ⟨some "meh", some "1"⟩])).map fun r => r.review,
          (dfSample [1, 0, 2]
            (dropna [⟨some "ok", some "1"⟩, ⟨some "bad", some "0"⟩,
                 ⟨some "meh", some "1"⟩])).map
            fun r => (parseInt? r.sentiment).getD 0) :=
  (coerce_and_wiring (fun _ _ _ _ => 0)
    ⟨true, true, [⟨some "ok", some "1"⟩, ⟨some "bad", some "0"⟩,
                  ⟨some "meh", some "1"⟩]⟩
    [1, 0, 2] (by decide) (by decide)).1

/-- C7: with the seed fixed at 42, the split is deterministic — the shuffle
is a pure function of the seed, so two runs given equal sampled texts and
equal labels produce equal `SplitResult`s: the same rows on the same sides
in the same order. -/
theorem trainTestSplit_deterministic (X₁ : List String) (y₁ : List Int)
    (X₂ : List String) (y₂ : List Int) (hX : X₁ = X₂) (hy : y₁ = y₂) :
    trainTestSplit 42 X₁ y₁ = trainTestSplit 42 X₂ y₂ := by
  rw [hX, hy]

/-- C7 witness: two runs of the split on the same concrete three-row sample
coincide. -/
theorem trainTestSplit_deterministic_witness :
    trainTestSplit 42 ["up", "down", "flat"] [1, 0, 0]
      = trainTestSplit 42 ["up", "down", "flat"] [1, 0, 0] :=
  trainTestSplit_deterministic ["up", "down", "flat"] [1, 0, 0]
    ["up", "down", "flat"] [1, 0, 0] rfl rfl

/-- C8: the cell validates nothing and catches nothing.  A missing file
stops the run at `read_csv`; a missing required column stops it at
`dropna`; a non-coercible sentiment stops it at `astype`.  In every failing
run the raw library error is the result, and none of the split, fit,
predict or report steps executes. -/
theorem runCell_error_propagation
    (opt : List (List Rat) → List Int → List Rat → Int → Rat)
    (samplePerm : List Nat) :
    runCell opt none samplePerm = (.error .fileMissing, ["read_csv"]) ∧
    (∀ f : CsvFile, ¬(f.hasReview ∧ f.hasSentiment) →
        runCell opt (some f) samplePerm
          = (.error .missingColumn, ["read_csv", "dropna"])) ∧
    (∀ f : CsvFile, f.hasReview ∧ f.hasSentiment →
        coerceColumns (dfSample samplePerm (dropna f.rows)) = none →
        runCell opt (some f) samplePerm
          = (.error .badLabel, ["read_csv", "dropna", "sample", "astype"])) ∧
    (∀ f : CsvFile, ∀ e : PipeError, ∀ steps : List String,
        runCell opt (some f) samplePerm = (.error e, steps) →
        "train_test_split" ∉ steps ∧ "fit" ∉ steps ∧
        "predict" ∉ steps ∧ "report" ∉ steps) := by
  refine ⟨rfl, ?_, ?_, ?_⟩
  · intro f hcols
    simp [runCell, hcols]
  · intro f hcols hfail
    simp [runCell, hcols.1, hcols.2, hfail]
  · intro f e steps h
    by_cases hcols : f.hasReview ∧ f.hasSentiment
    · rcases hcc : coerceColumns (dfSample samplePerm (dropna f.rows)) with _ | ⟨X, y⟩
      · simp only [runCell, hcols.1, hcols.2, and_self, if_true, hcc] at h
        obtain ⟨-, hsteps⟩ := Prod.mk.injEq .. ▸ h
        subst hsteps
        refine ⟨?_, ?_, ?_, ?_⟩ <;> decide
      · simp only [runCell, hcols.1, hcols.2, and_self, if_true, hcc] at h
        simp at h
    · simp only [runCell, hcols, if_false] at h
      obtain ⟨-, hsteps⟩ := Prod.mk.injEq .. ▸ h
      subst hsteps
      refine ⟨?_, ?_, ?_, ?_⟩ <;> decide

/-- C8 witness: a run with no file stops at `read_csv` with the raw error,
and a run over a file of textual sentiments stops at `astype`; in both, no
modelling step appears among the executed steps. -/
theorem runCell_error_propagation_witness :
    runCell (fun _ _ _ _ => 0) none [] = (.error .fileMissing, ["read_csv"]) ∧
    runCell (fun _ _ _ _ => 0)
        (some ⟨true, true,
          [⟨some "ok", some "positive"⟩, ⟨some "bad", some "negative"⟩,
           ⟨some "meh", some "neutral"⟩]⟩) [0, 1, 2]
      = (.error .badLabel, ["read_csv", "dropna", "sample", "astype"]) :=
  ⟨(runCell_error_propagation (fun _ _ _ _ => 0) []).1,
   (runCell_error_propagation (fun _ _ _ _ => 0) [0, 1, 2]).2.2.1
     ⟨true, true,
       [⟨some "ok", some "positive"⟩, ⟨some "bad", some "negative"⟩,
        ⟨some "meh", some "neutral"⟩]⟩
     (by decide) (by decide)⟩

/-- C9: the split preserves the pairing of texts with labels — at every
position of the test (respectively train) partition, the text and the label
were one row of the sampled dataset, an entry of `X.zip y`. -/
theorem trainTestSplit_pairing (X : List String) (y : List Int)
    (h : y.length = X.length) (i j : Nat)
    (hi : i < (trainTestSplit 42 X y).XTestRaw.length)
    (hj : j < (trainTestSplit 42 X y).XTrainRaw.length) :
    ((trainTestSplit 42 X y).XTestRaw.getD i "",
     (trainTestSplit 42 X y).yTest.getD i 0) ∈ X.zip y ∧
    ((trainTestSplit 42 X y).XTrainRaw.getD j "",
     (trainTestSplit 42 X y).yTrain.getD j 0) ∈ X.zip y := by
  have hvalidT : ∀ k ∈ (shuffleIndices 42 X.length).take (testPartSize X.length),
      k < X.length := fun k hk => mem_shuffleIndices_lt (List.mem_of_mem_take hk)
  have hvalidR : ∀ k ∈ (shuffleIndices 42 X.length).drop (testPartSize X.length),
      k < X.length := fun k hk => mem_shuffleIndices_lt (List.mem_of_mem_drop hk)
  have hiT : i < ((shuffleIndices 42 X.length).take (testPartSize X.length)).length := by
    have e : (trainTestSplit 42 X y).XTestRaw
        = ((shuffleIndices 42 X.length).take (testPartSize X.length)).filterMap
            fun k => X[k]? := rfl
    rw [e, length_filterMap_getElem? X "" _ hvalidT] at hi
    exact hi
  have hjR : j < ((shuffleIndices 42 X.length).drop (testPartSize X.length)).length := by
    have e : (trainTestSplit 42 X y).XTrainRaw
        = ((shuffleIndices 42 X.length).drop (testPartSize X.length)).filterMap
            fun k => X[k]? := rfl
    rw [e, length_filterMap_getElem? X "" _ hvalidR] at hj
    exact hj
  constructor
  · show ((((shuffleIndices 42 X.length).take (testPartSize X.length)).filterMap
        fun k => X[k]?).getD i "",
      (((shuffleIndices 42 X.length).take (testPartSize X.length)).filterMap
        fun k => y[k]?).getD i 0) ∈ X.zip y
    exact indexed_pair_mem_zip X y h _ hvalidT i hiT
  · show ((((shuffleIndices 42 X.length).drop (testPartSize X.length)).filterMap
        fun k => X[k]?).getD j "",
      (((shuffleIndices 42 X.length).drop (testPartSize X.length)).filterMap
        fun k => y[k]?).getD j 0) ∈ X.zip y
    exact indexed_pair_mem_zip X y h _ hvalidR j hjR

/-- C9 witness: on a concrete six-row sample, the first test pair and the
first train pair are both rows of the zipped input. -/
theorem trainTestSplit_pairing_witness :
    ((trainTestSplit 42 ["p", "q", "r", "s", "t", "u"]
        [10, 11, 12, 13, 14, 15]).XTestRaw.getD 0 "",
     (trainTestSplit 42 ["p", "q", "r", "s", "t", "u"]
        [10, 11, 12, 13, 14, 15]).yTest.getD 0 0)
      ∈ (["p", "q", "r", "s", "t", "u"] : List String).zip
          ([10, 11, 12, 13, 14, 15] : List Int) ∧
    ((trainTestSplit 42 ["p", "q", "r", "s", "t", "u"]
        [10, 11, 12, 13, 14, 15]).XTrainRaw.getD 0 "",
     (trainTestSplit 42 ["p", "q", "r", "s", "t", "u"]
        [10, 11, 12, 13, 14, 15]).yTrain.getD 0 0)
      ∈ (["p", "q", "r", "s", "t", "u"] : List String).zip
          ([10, 11, 12, 13, 14, 15] : List Int) :=
  trainTestSplit_pairing ["p", "q", "r", "s", "t", "u"] [10, 11, 12, 13, 14, 15]
    rfl 0 0 (by decide) (by decide)

/-- C10: whatever scoring the optimizer produced, every label the fitted
model predicts — for any test feature vector — is one of the distinct
labels occurring in `y_train`; no class absent from the training labels is
ever emitted. -/
theorem lrPredict_classes (opt : List (List Rat) → List Int → List Rat → Int → Rat)
    (XTrain : List (List Rat)) (yTrain : List Int) (hne : yTrain ≠ [])
    (XTest : List (List Rat)) :
    ∀ p ∈ lrPredict (lrFit opt XTrain yTrain) XTest, p ∈ yTrain := by
  intro p hp
  obtain ⟨x, _, hpx⟩ := List.mem_map.mp hp
  rw [← hpx]
  exact mem_npUnique.mp (pickMax_mem _ _ (npUnique_ne_nil hne))

/-- C10 witness: a concrete two-class fit predicts a label drawn from the
training labels. -/
theorem lrPredict_classes_witness :
    lrPredictOne (lrFit (fun _ _ _ _ => 0) [[(1 : Rat)]] [0, 1]) [(1 : Rat)]
      ∈ ([0, 1] : List Int) :=
  lrPredict_classes (fun _ _ _ _ => 0) [[(1 : Rat)]] [0, 1] (by decide)
    [[(1 : Rat)]]
    (lrPredictOne (lrFit (fun _ _ _ _ => 0) [[(1 : Rat)]] [0, 1]) [(1 : Rat)])
    (by simp [lrPredict])
